import Mathlib

/-!
Shallow embedding of the AI-chat backend (src/main.py): the rule-based
reply engine (`generate_ai_reply`), its text utilities (`summarize`,
`reflect`) and the message-exchange coordinator (`send_message` /
`add_message`) over an abstract document store.

Strings are modelled as Lean `String` / `List Char`; Python's
`str.split()` (whitespace split dropping empties), `str.split(" ")`
(single-space split keeping empties), `str.strip()` and `str.strip('.,!?')`
are embedded as explicit `List Char` functions below.
-/

namespace ChatBackend

/-- Python `str.strip()` on the left: drop leading whitespace. -/
def trimLeft (l : List Char) : List Char :=
  l.dropWhile fun c => c.isWhitespace

/-- Python `str.strip()` on the right: drop trailing whitespace. -/
def trimRight (l : List Char) : List Char :=
  (l.reverse.dropWhile fun c => c.isWhitespace).reverse

/-- Python `str.strip()`: drop leading and trailing whitespace. -/
def trim (l : List Char) : List Char :=
  trimRight (trimLeft l)

/-- Accumulator worker for Python `str.split()`: `acc` holds the current
token reversed; whitespace closes a token, everything else extends it. -/
def wordsAux (acc : List Char) : List Char → List (List Char)
  | [] => if acc.isEmpty then [] else [acc.reverse]
  | c :: cs =>
    if c.isWhitespace then
      if acc.isEmpty then wordsAux [] cs else acc.reverse :: wordsAux [] cs
    else
      wordsAux (c :: acc) cs

/-- Python `str.split()` (no argument): split on runs of whitespace,
discarding empty tokens. -/
def words (l : List Char) : List (List Char) :=
  wordsAux [] l

/-- Python `sep.join(tokens)`. -/
def joinWith (sep : List Char) : List (List Char) → List Char
  | [] => []
  | [t] => t
  | t :: ts => t ++ sep ++ joinWith sep ts

/-- `summarize` from src/main.py on `List Char`: if the input has at most
12 whitespace tokens return it unchanged, else join the first 12 tokens
with single spaces and append a space and an ellipsis. -/
def summarizeCL (l : List Char) : List Char :=
  if (words l).length ≤ 12 then l
  else joinWith [' '] ((words l).take 12) ++ [' ', '…']

/-- `summarize(text)` from src/main.py. -/
def summarize (s : String) : String :=
  String.mk (summarizeCL s.data)

/-- The punctuation characters stripped by `reflect`: `.` `,` `!` `?`. -/
def isPunct (c : Char) : Bool :=
  c == '.' || c == ',' || c == '!' || c == '?'

/-- Python `w.strip('.,!?')`: drop the punctuation characters from both
ends of a token. -/
def stripPunct (t : List Char) : List Char :=
  ((t.dropWhile isPunct).reverse.dropWhile isPunct).reverse

/-- The key-word list built inside `reflect`: tokenize on whitespace,
strip punctuation, keep tokens longer than 5 characters, deduplicate,
sort lexicographically, take the first 6 (Python
`sorted(set([w for w in words if len(w) > 5]))[:6]`). -/
def reflectKeysCL (l : List Char) : List (List Char) :=
  let ws := (words l).map stripPunct
  (List.insertionSort (· ≤ ·) ((ws.filter fun w => 5 < w.length).dedup)).take 6

/-- `reflect` from src/main.py on `List Char`: join the key words with
`", "`; if that string is empty fall back to a fixed reply. -/
def reflectCL (l : List Char) : List Char :=
  let key := joinWith [',', ' '] (reflectKeysCL l)
  if key.isEmpty then ("sounds interesting!").data
  else ("key points → ").data ++ key

/-- `reflect(text)` from src/main.py. -/
def reflect (s : String) : String :=
  String.mk (reflectCL s.data)

/-- Python `pat in s`: `pat` occurs as a contiguous substring of `s`. -/
def isSubstr (pat : List Char) : List Char → Bool
  | [] => pat.isEmpty
  | c :: cs => pat.isPrefixOf (c :: cs) || isSubstr pat cs

/-- Python `s.split(" ")`: split at every single space, keeping empty
pieces between consecutive spaces. -/
def splitOnSpace : List Char → List (List Char)
  | [] => [[]]
  | c :: cs =>
    if c == ' ' then [] :: splitOnSpace cs
    else
      match splitOnSpace cs with
      | [] => [[c]]
      | t :: ts => (c :: t) :: ts

/-- `generate_ai_reply(prompt)` from src/main.py. The argument is
optional because the Python body guards with `prompt or ""`, treating an
absent prompt like the empty string. The ordered dispatch chain: empty
check, greeting substrings, help, /summarize, /todo, reflective default. -/
def generate_ai_reply (prompt : Option String) : String :=
  let p := trim (prompt.getD "").data
  if p.isEmpty then "I\x27m here! Ask me anything."
  else
    let lower := p.map Char.toLower
    if isSubstr ("hello").data lower || isSubstr ("hi").data lower ||
        isSubstr ("hey").data lower then
      "Hey there! How can I help you today?"
    else if ("/help").data.isPrefixOf lower || isSubstr ("help").data lower then
      "I can answer questions, summarize, or brainstorm ideas. Just type your message!"
    else if ("/summarize").data.isPrefixOf lower then
      String.mk (("Summary: ").data ++ summarizeCL (trim (p.drop ("/summarize").length)))
    else if ("/todo").data.isPrefixOf lower then
      let items := ((splitOnSpace p).drop 1).map trim
      let bullets := joinWith ['\n'] ((items.filter fun i => !i.isEmpty).map
        fun i => ("• ").data ++ i)
      if bullets.isEmpty then "Provide items after /todo"
      else String.mk (("Here’s your checklist:\n").data ++ bullets)
    else
      String.mk (("You said: \x27").data ++ p ++
        ("\x27. Here\x27s a helpful thought: ").data ++ reflectCL p)

/-! ## Message exchange coordinator over the abstract document store

`add_message` and `send_message` embed the handlers of src/main.py lines
123-164.  The store itself (`database.py`: `create_document`, the message
collection read back ascending by creation time) is not under src/, so it
is modelled from the spec's document-store contract: `insert` assigns a
fresh identifier and records the document in creation-time order. -/

/-- Errors surfaced by the handlers: HTTP 400 for a malformed identifier,
HTTP 404 for a missing conversation. -/
inductive ApiError where
  | invalidIdentifier
  | conversationNotFound
deriving DecidableEq

/-- A stored message document (`role`, `content`, owning conversation). -/
structure MessageDoc where
  conversation_id : String
  role : String
  content : String
deriving DecidableEq

/-- The `MessageOut` response schema of src/main.py. -/
structure MessageOut where
  id : Nat
  conversation_id : String
  role : String
  content : String
deriving DecidableEq

/-- Modelled from the spec: the abstract document store.  `conversations`
holds the identifiers of existing Conversation documents; `messages`
holds the message documents in creation-time order, each with its
store-assigned identifier; `nextId` is the next fresh identifier. -/
structure Store where
  conversations : List String
  messages : List (Nat × MessageDoc)
  nextId : Nat
deriving DecidableEq

/-- A hexadecimal digit, for bson ObjectId validity. -/
def isHexDigit (c : Char) : Bool :=
  c.isDigit || ('a' ≤ c && c ≤ 'f') || ('A' ≤ c && c ≤ 'F')

/-- Modelled from the spec: bson's `ObjectId.is_valid` on a string — a
syntactically valid identifier is exactly 24 hexadecimal characters. -/
def objectIdIsValid (s : String) : Bool :=
  s.length == 24 && s.data.all isHexDigit

/-- Modelled from the spec: `create_document("message", doc)` from
database.py — append the document in creation-time order and return the
store-assigned identifier. -/
def createMessage (st : Store) (doc : MessageDoc) : Store × Nat :=
  ({ st with messages := st.messages ++ [(st.nextId, doc)],
             nextId := st.nextId + 1 },
   st.nextId)

/-- `add_message(conversation_id, payload)` from src/main.py lines
123-144: validate the identifier, ensure the conversation exists, insert
the message, return the response record.  The store state is threaded
explicitly; on error it is returned unchanged. -/
def add_message (st : Store) (cid role content : String) :
    Store × Except ApiError MessageOut :=
  if objectIdIsValid cid then
    if st.conversations.contains cid then
      let (st', mid) := createMessage st ⟨cid, role, content⟩
      (st', .ok ⟨mid, cid, role, content⟩)
    else (st, .error .conversationNotFound)
  else (st, .error .invalidIdentifier)

/-- `send_message(conversation_id, req)` from src/main.py lines 148-164:
validate the identifier, store the user message, generate the assistant
reply, store the assistant message, return the assistant record.  An
error at any step aborts, keeping the writes made so far. -/
def send_message (st : Store) (cid content : String) :
    Store × Except ApiError MessageOut :=
  if objectIdIsValid cid then
    match add_message st cid "user" content with
    | (st1, .error e) => (st1, .error e)
    | (st1, .ok _) =>
      match add_message st1 cid "assistant" (generate_ai_reply (some content)) with
      | (st2, .error e) => (st2, .error e)
      | (st2, .ok created) => (st2, .ok created)
  else (st, .error .invalidIdentifier)

/-! ## Helper lemmas about whitespace tokenization -/

/-- Every token produced by `wordsAux` from a whitespace-free accumulator
is nonempty and contains no whitespace. -/
theorem wordsAux_tokens : ∀ (l acc : List Char),
    (∀ c ∈ acc, c.isWhitespace = false) →
    ∀ t ∈ wordsAux acc l, t ≠ [] ∧ ∀ c ∈ t, c.isWhitespace = false := by
  intro l
  induction l with
  | nil =>
    intro acc hacc t ht
    cases acc with
    | nil => simp [wordsAux] at ht
    | cons a as =>
      simp [wordsAux] at ht
      subst ht
      refine ⟨by simp, ?_⟩
      intro c hc
      rw [← List.reverse_cons] at hc
      exact hacc c (List.mem_reverse.mp hc)
  | cons c cs ih =>
    intro acc hacc t ht
    by_cases hc : c.isWhitespace
    · cases acc with
      | nil =>
        simp [wordsAux, hc] at ht
        exact ih [] (by simp) t ht
      | cons a as =>
        simp [wordsAux, hc] at ht
        rcases ht with ht | ht
        · subst ht
          refine ⟨by simp, ?_⟩
          intro d hd
          rw [← List.reverse_cons] at hd
          exact hacc d (List.mem_reverse.mp hd)
        · exact ih [] (by simp) t ht
    · simp only [wordsAux, hc, if_false] at ht
      refine ih (c :: acc) ?_ t ht
      intro d hd
      rcases List.mem_cons.1 hd with rfl | hd
      · simpa using hc
      · exact hacc d hd

/-- Every token of `words l` is nonempty and whitespace-free. -/
theorem words_tokens (l : List Char) :
    ∀ t ∈ words l, t ≠ [] ∧ ∀ c ∈ t, c.isWhitespace = false :=
  wordsAux_tokens l [] (by simp)

/-- Feeding a whitespace-free chunk into `wordsAux` just piles it onto
the accumulator. -/
theorem wordsAux_append_chunk : ∀ (t : List Char),
    (∀ c ∈ t, c.isWhitespace = false) →
    ∀ (acc rest : List Char),
      wordsAux acc (t ++ rest) = wordsAux (t.reverse ++ acc) rest := by
  intro t
  induction t with
  | nil => intro _ acc rest; simp
  | cons c t' ih =>
    intro ht acc rest
    have hc : c.isWhitespace = false := ht c (by simp)
    have ht' : ∀ d ∈ t', d.isWhitespace = false := fun d hd => ht d (by simp [hd])
    simp only [List.cons_append, wordsAux, hc, if_false, Bool.false_eq_true,
      List.append_eq]
    rw [ih ht' (c :: acc) rest]
    simp

/-- A space flushes a nonempty accumulator as a completed token. -/
theorem wordsAux_space (acc : List Char) (ha : acc ≠ []) (rest : List Char) :
    wordsAux acc (' ' :: rest) = acc.reverse :: wordsAux [] rest := by
  cases acc with
  | nil => exact absurd rfl ha
  | cons a as => simp [wordsAux]

/-- Splitting a single-space join of nonempty whitespace-free tokens
recovers exactly those tokens. -/
theorem words_joinWith : ∀ (ts : List (List Char)),
    ts ≠ [] →
    (∀ t ∈ ts, t ≠ [] ∧ ∀ c ∈ t, c.isWhitespace = false) →
    words (joinWith [' '] ts) = ts := by
  intro ts
  induction ts with
  | nil => intro h; exact absurd rfl h
  | cons t ts ih =>
    intro _ hall
    obtain ⟨htne, htws⟩ := hall t (by simp)
    cases ts with
    | nil =>
      show wordsAux [] (joinWith [' '] [t]) = [t]
      have h1 : joinWith [' '] [t] = t ++ [] := by simp [joinWith]
      rw [h1, wordsAux_append_chunk t htws [] [], List.append_nil]
      have h2 : t.reverse.isEmpty = false := by
        cases hrev : t.reverse with
        | nil => exact absurd (by simpa using congrArg List.reverse hrev) htne
        | cons r rs => rfl
      show (if t.reverse.isEmpty then [] else [t.reverse.reverse]) = [t]
      rw [h2]
      simp
    | cons u ts' =>
      have hj : joinWith [' '] (t :: u :: ts') =
          t ++ (' ' :: joinWith [' '] (u :: ts')) := by
        simp [joinWith]
      show wordsAux [] (joinWith [' '] (t :: u :: ts')) = t :: u :: ts'
      rw [hj, wordsAux_append_chunk t htws [] _, List.append_nil,
        wordsAux_space _ (by simpa using htne) _, List.reverse_reverse]
      have := ih (by simp) (fun x hx => hall x (by simp [hx]))
      rw [show words (joinWith [' '] (u :: ts')) =
        wordsAux [] (joinWith [' '] (u :: ts')) from rfl] at this
      rw [this]

/-- Joining `a ++ [b]` splits the final separator off the join. -/
theorem joinWith_append_single (sep : List Char) :
    ∀ (a : List (List Char)) (b : List Char), a ≠ [] →
      joinWith sep (a ++ [b]) = joinWith sep a ++ sep ++ b := by
  intro a
  induction a with
  | nil => intro b h; exact absurd rfl h
  | cons x a' ih =>
    intro b _
    cases a' with
    | nil => simp [joinWith]
    | cons y a'' =>
      have := ih b (by simp)
      simp only [List.cons_append, joinWith, List.append_eq] at this ⊢
      rw [this]
      simp [List.append_assoc]

/-! ## Summarize lemmas -/

/-- At 12 tokens or fewer, `summarizeCL` is the identity. -/
theorem summarizeCL_short (l : List Char) (h : (words l).length ≤ 12) :
    summarizeCL l = l := by
  simp [summarizeCL, h]

/-- Above 12 tokens, `summarizeCL` unfolds to the truncated join. -/
theorem summarizeCL_long (l : List Char) (h : ¬(words l).length ≤ 12) :
    summarizeCL l = joinWith [' '] ((words l).take 12) ++ [' ', '…'] := by
  rw [summarizeCL, if_neg h]

/-- The tokens of a truncated summary are the first 12 input tokens
followed by the ellipsis token. -/
theorem words_summarizeCL_long (l : List Char) (h : ¬(words l).length ≤ 12) :
    words (summarizeCL l) = (words l).take 12 ++ [['…']] := by
  have hT : ∀ t ∈ (words l).take 12 ++ [['…']],
      t ≠ [] ∧ ∀ c ∈ t, c.isWhitespace = false := by
    intro t ht
    rcases List.mem_append.1 ht with ht | ht
    · exact words_tokens l t (List.take_subset _ _ ht)
    · simp only [List.mem_singleton] at ht
      subst ht
      exact ⟨by simp, by decide⟩
  have htake : (words l).take 12 ≠ [] := by
    have hlen : ((words l).take 12).length = 12 := by
      rw [List.length_take]
      omega
    intro hnil
    rw [hnil] at hlen
    simp at hlen
  have hjoin : joinWith [' '] ((words l).take 12) ++ [' ', '…'] =
      joinWith [' '] ((words l).take 12 ++ [['…']]) := by
    rw [joinWith_append_single [' '] _ ['…'] htake]
    simp
  rw [summarizeCL_long l h, hjoin]
  exact words_joinWith _ (by simp) hT

/-- `summarizeCL` is idempotent on every input. -/
theorem summarizeCL_idem (l : List Char) :
    summarizeCL (summarizeCL l) = summarizeCL l := by
  by_cases h : (words l).length ≤ 12
  · rw [summarizeCL_short l h]
    exact summarizeCL_short l h
  · have hw := words_summarizeCL_long l h
    have hlen : ((words l).take 12).length = 12 := by
      rw [List.length_take]
      omega
    have h13 : ¬(words (summarizeCL l)).length ≤ 12 := by
      rw [hw]
      simp [hlen]
    have htake : ((words l).take 12 ++ [['…']]).take 12 = (words l).take 12 := by
      have h12 : ((words l).take 12 ++ [['…']]).take 12 =
          ((words l).take 12 ++ [['…']]).take (((words l).take 12).length) := by
        rw [hlen]
      rw [h12, List.take_left]
    rw [summarizeCL_long _ h13, hw, htake, ← summarizeCL_long l h]

/-- C7: on an input with at most 12 whitespace tokens, `summarize` is the
identity, hence idempotent. -/
theorem summarize_id_on_short (x : String)
    (h : (words x.data).length ≤ 12) :
    summarize (summarize x) = summarize x ∧ summarize x = x := by
  have h1 : summarize x = x := by
    rw [summarize, summarizeCL_short _ h]
  refine ⟨?_, h1⟩
  rw [h1]
  exact h1

/-- Witness for C7 at the concrete three-token input. -/
theorem summarize_id_on_short_witness :
    (words ("a b c" : String).data).length ≤ 12 ∧
    (summarize (summarize "a b c") = summarize "a b c" ∧
      summarize "a b c" = "a b c") :=
  ⟨by decide, summarize_id_on_short "a b c" (by decide)⟩

/-- C9: `summarize` is idempotent on every input string — a truncated
output has 13 tokens (the kept 12 plus the ellipsis token), and
re-summarizing reproduces the same string. -/
theorem summarize_idempotent (x : String) :
    summarize (summarize x) = summarize x := by
  simp only [summarize]
  rw [summarizeCL_idem]

/-! ## Reflect lemmas -/

/-- The key-word list of `reflect` is sorted lexicographically. -/
theorem reflectKeysCL_sorted (l : List Char) :
    (reflectKeysCL l).Sorted (· ≤ ·) := by
  have h := List.sorted_insertionSort (α := List Char) (· ≤ ·)
    ((((words l).map stripPunct).filter fun w => 5 < w.length).dedup)
  exact List.Pairwise.sublist (List.take_sublist _ _) h

/-- The key-word list of `reflect` has no duplicates. -/
theorem reflectKeysCL_nodup (l : List Char) :
    (reflectKeysCL l).Nodup := by
  have hd : ((((words l).map stripPunct).filter fun w => 5 < w.length).dedup).Nodup :=
    List.nodup_dedup _
  have hs : (List.insertionSort (· ≤ ·)
      ((((words l).map stripPunct).filter fun w => 5 < w.length).dedup)).Nodup :=
    ((List.perm_insertionSort (· ≤ ·) _).nodup_iff).mpr hd
  exact List.Nodup.sublist (List.take_sublist _ _) hs

/-- Every key word of `reflect` has length strictly greater than 5. -/
theorem reflectKeysCL_mem_length (l : List Char) (t : List Char)
    (ht : t ∈ reflectKeysCL l) : 5 < t.length := by
  have h1 := List.take_subset _ _ ht
  rw [List.mem_insertionSort] at h1
  rw [List.mem_dedup] at h1
  have h2 := List.of_mem_filter h1
  simpa using h2

/-- The key-word list of `reflect` has at most 6 elements. -/
theorem reflectKeysCL_length_le (l : List Char) :
    (reflectKeysCL l).length ≤ 6 :=
  List.length_take_le _ _

/-- With no key words, `reflectCL` returns the literal fallback. -/
theorem reflectCL_of_nil (l : List Char) (h : reflectKeysCL l = []) :
    reflectCL l = ("sounds interesting!").data := by
  simp [reflectCL, h, joinWith]

/-- With at least one key word, `reflectCL` returns the joined key
points. -/
theorem reflectCL_of_ne_nil (l : List Char) (h : reflectKeysCL l ≠ []) :
    reflectCL l = ("key points → ").data ++ joinWith [',', ' '] (reflectKeysCL l) := by
  obtain ⟨k, rest, hk⟩ : ∃ k rest, reflectKeysCL l = k :: rest := by
    cases hc : reflectKeysCL l with
    | nil => exact absurd hc h
    | cons k rest => exact ⟨k, rest, rfl⟩
  have hklen : 5 < k.length := reflectKeysCL_mem_length l k (by rw [hk]; simp)
  have hkne : k ≠ [] := by
    intro hnil
    rw [hnil] at hklen
    simp at hklen
  have hne : joinWith [',', ' '] (reflectKeysCL l) ≠ [] := by
    rw [hk]
    cases rest with
    | nil => simpa [joinWith] using hkne
    | cons u rest' => simp [joinWith]
  have hemp : (joinWith [',', ' '] (reflectKeysCL l)).isEmpty = false := by
    cases hj : joinWith [',', ' '] (reflectKeysCL l) with
    | nil => exact absurd hj hne
    | cons a as => rfl
  simp only [reflectCL, hemp, Bool.false_eq_true, if_false]

/-- C6: the key-word list behind `reflect` is always sorted,
duplicate-free, made of tokens longer than 5 characters after
punctuation stripping, and has at most 6 elements; `reflect` returns the
fixed fallback exactly when that list is empty, and otherwise joins the
list after the `key points` prefix. -/
theorem reflect_keys_properties (s : String) :
    (reflectKeysCL s.data).Sorted (· ≤ ·) ∧
    (reflectKeysCL s.data).Nodup ∧
    (∀ t ∈ reflectKeysCL s.data, 5 < t.length) ∧
    (reflectKeysCL s.data).length ≤ 6 ∧
    (reflectKeysCL s.data = [] → reflect s = "sounds interesting!") ∧
    (reflectKeysCL s.data ≠ [] →
      reflect s = String.mk (("key points → ").data ++
        joinWith [',', ' '] (reflectKeysCL s.data))) := by
  refine ⟨reflectKeysCL_sorted _, reflectKeysCL_nodup _,
    reflectKeysCL_mem_length _, reflectKeysCL_length_le _, ?_, ?_⟩
  · intro h
    rw [reflect, reflectCL_of_nil _ h]
  · intro h
    rw [reflect, reflectCL_of_ne_nil _ h]

/-! ## Reply-engine claim theorems -/

/-- C3 counterexample: on the thirteen-word `/summarize` prompt the
engine does NOT return the claimed `Summary:` string — the greeting rule
fires first, because `thirteen` contains the substring `hi`. -/
theorem summarize_cmd_claim_refuted :
    generate_ai_reply
      (some "/summarize one two three four five six seven eight nine ten eleven twelve thirteen") ≠
      "Summary: one two three four five six seven eight nine ten eleven twelve …" := by
  decide

/-- C3 (amended): the greeting rule, an earlier rule of the ordered
dispatch chain, handles the thirteen-word `/summarize` prompt — its
lowercase form contains `hi` (inside `thirteen`) — so the engine returns
the fixed greeting reply. -/
theorem summarize_cmd_greeting_intercept :
    isSubstr ("hi").data
      ((trim ("/summarize one two three four five six seven eight nine ten eleven twelve thirteen" : String).data).map
        Char.toLower) = true ∧
    generate_ai_reply
      (some "/summarize one two three four five six seven eight nine ten eleven twelve thirteen") =
      "Hey there! How can I help you today?" := by
  exact ⟨by decide, by decide⟩

/-- C4 counterexample: the checklist header in the code uses the
right single quotation mark U+2019, not the ASCII apostrophe the claim
states, so the claimed output string is not returned. -/
theorem todo_ascii_apostrophe_refuted :
    generate_ai_reply (some "/todo buy milk, walk dog") ≠
      "Here\x27s your checklist:\n• buy\n• milk,\n• walk\n• dog" := by
  decide

/-- C4 (amended): `/todo buy milk, walk dog` yields the checklist header
(spelled `Here’s` with U+2019 as in the source) followed by the four
bullets `• buy`, `• milk,`, `• walk`, `• dog` joined by newlines —
splitting on single spaces only, with no comma handling. -/
theorem todo_checklist_output :
    generate_ai_reply (some "/todo buy milk, walk dog") =
      "Here’s your checklist:\n• buy\n• milk,\n• walk\n• dog" := by
  decide

/-- C5 counterexample: `healthy` does not contain the substring `help`,
so a prompt containing `healthy` does not take the help branch — it
falls through to the reflective default. -/
theorem healthy_not_help_refuted :
    isSubstr ("help").data
      ((trim ("healthy" : String).data).map Char.toLower) = false ∧
    generate_ai_reply (some "healthy") ≠
      "I can answer questions, summarize, or brainstorm ideas. Just type your message!" := by
  exact ⟨by decide, by decide⟩

/-- C5 (amended): every prompt that is nonempty after trimming, whose
lowercase form contains none of `hello`, `hi`, `hey`, and which starts
with `/help` or contains `help` anywhere, gets the fixed
capability-description reply.  (The `healthy` example of the claim is
dropped: `healthy` does not contain `help`.) -/
theorem help_branch_reply (s : String)
    (h1 : trim s.data ≠ [])
    (h2 : isSubstr ("hello").data ((trim s.data).map Char.toLower) = false)
    (h3 : isSubstr ("hi").data ((trim s.data).map Char.toLower) = false)
    (h4 : isSubstr ("hey").data ((trim s.data).map Char.toLower) = false)
    (h5 : ("/help").data.isPrefixOf ((trim s.data).map Char.toLower) = true ∨
        isSubstr ("help").data ((trim s.data).map Char.toLower) = true) :
    generate_ai_reply (some s) =
      "I can answer questions, summarize, or brainstorm ideas. Just type your message!" := by
  have hemp : (trim s.data).isEmpty = false := by
    cases h : trim s.data with
    | nil => exact absurd h h1
    | cons a as => rfl
  rcases h5 with h5 | h5 <;>
    simp [generate_ai_reply, hemp, h2, h3, h4, h5]

/-- Witness for C5 (amended) at the concrete prompt `/help`. -/
theorem help_branch_reply_witness :
    (trim ("/help" : String).data ≠ [] ∧
      isSubstr ("hello").data ((trim ("/help" : String).data).map Char.toLower) = false ∧
      isSubstr ("hi").data ((trim ("/help" : String).data).map Char.toLower) = false ∧
      isSubstr ("hey").data ((trim ("/help" : String).data).map Char.toLower) = false ∧
      ("/help").data.isPrefixOf ((trim ("/help" : String).data).map Char.toLower) = true) ∧
    generate_ai_reply (some "/help") =
      "I can answer questions, summarize, or brainstorm ideas. Just type your message!" :=
  ⟨⟨by decide, by decide, by decide, by decide, by decide⟩,
    help_branch_reply "/help" (by decide) (by decide) (by decide) (by decide)
      (Or.inl (by decide))⟩

/-- C8: the empty prompt and the all-blank prompt both produce the one
fixed greeting-fallback string, and so does every prompt that is empty
after trimming. -/
theorem empty_prompt_fixed_fallback :
    generate_ai_reply (some "") = "I\x27m here! Ask me anything." ∧
    generate_ai_reply (some "   ") = "I\x27m here! Ask me anything." ∧
    ∀ s : String, trim s.data = [] →
      generate_ai_reply (some s) = "I\x27m here! Ask me anything." := by
  refine ⟨by decide, by decide, ?_⟩
  intro s h
  simp [generate_ai_reply, h]

/-- C10: an absent prompt is treated exactly like the empty string via
the `prompt or ""` guard, so the engine is total on `none` and returns
the fixed fallback. -/
theorem none_prompt_like_empty :
    generate_ai_reply none = generate_ai_reply (some "") ∧
    generate_ai_reply none = "I\x27m here! Ask me anything." :=
  ⟨rfl, by decide⟩

/-! ## Coordinator claim theorems -/

/-- C1: on an existing conversation, `send_message` persists exactly two
new messages in order — the user message with the request content, then
the assistant message whose content is `generate_ai_reply` of it — and
returns the assistant record. -/
theorem sendMessage_persists_two_messages (st : Store) (cid content : String)
    (h1 : objectIdIsValid cid = true)
    (h2 : st.conversations.contains cid = true) :
    send_message st cid content =
      ({ st with
          messages := st.messages ++
            [(st.nextId, ⟨cid, "user", content⟩),
              (st.nextId + 1, ⟨cid, "assistant", generate_ai_reply (some content)⟩)],
          nextId := st.nextId + 2 },
        Except.ok ⟨st.nextId + 1, cid, "assistant", generate_ai_reply (some content)⟩) := by
  have h2' : cid ∈ st.conversations := by simpa using h2
  simp [send_message, add_message, createMessage, h1, h2', List.append_assoc]

/-- Witness for C1 on a one-conversation store. -/
theorem sendMessage_persists_two_messages_witness :
    (objectIdIsValid "507f1f77bcf86cd799439011" = true ∧
      (Store.mk ["507f1f77bcf86cd799439011"] [] 0).conversations.contains
        "507f1f77bcf86cd799439011" = true) ∧
    send_message (Store.mk ["507f1f77bcf86cd799439011"] [] 0)
        "507f1f77bcf86cd799439011" "ping" =
      (Store.mk ["507f1f77bcf86cd799439011"]
        [(0, ⟨"507f1f77bcf86cd799439011", "user", "ping"⟩),
          (1, ⟨"507f1f77bcf86cd799439011", "assistant", generate_ai_reply (some "ping")⟩)] 2,
        Except.ok ⟨1, "507f1f77bcf86cd799439011", "assistant",
          generate_ai_reply (some "ping")⟩) := by
  refine ⟨⟨by decide, by decide⟩, ?_⟩
  exact sendMessage_persists_two_messages _ _ _ (by decide) (by decide)

/-- C2: on a syntactically valid but nonexistent conversation id,
`send_message` fails with `conversationNotFound` and the store is
returned unchanged — zero messages are inserted. -/
theorem sendMessage_missing_conversation (st : Store) (cid content : String)
    (h1 : objectIdIsValid cid = true)
    (h2 : st.conversations.contains cid = false) :
    send_message st cid content = (st, Except.error ApiError.conversationNotFound) := by
  have h2' : cid ∉ st.conversations := by simpa using h2
  simp [send_message, add_message, h1, h2']

/-- Witness for C2 on an empty store. -/
theorem sendMessage_missing_conversation_witness :
    (objectIdIsValid "507f1f77bcf86cd799439011" = true ∧
      (Store.mk [] [] 0).conversations.contains "507f1f77bcf86cd799439011" = false) ∧
    send_message (Store.mk [] [] 0) "507f1f77bcf86cd799439011" "ping" =
      (Store.mk [] [] 0, Except.error ApiError.conversationNotFound) := by
  refine ⟨⟨by decide, by decide⟩, ?_⟩
  exact sendMessage_missing_conversation _ _ _ (by decide) (by decide)

end ChatBackend
